import Mathlib

/-!
Verification of the learning-rate schedulers module (`mlp/schedulers.py`).

The module contains two schedulers:

* `ConstantLearningRateScheduler` — stores a fixed learning rate and, on
  `update_learning_rule`, writes it into the learning rule's
  `learning_rate` attribute (returning nothing).
* `CosineAnnealingWithWarmRestarts` — the SGDR cosine-annealing schedule
  with warm restarts.  Each call recomputes the cycle position and cycle
  count from the absolute epoch number and the *original* period, applies
  the discount factor once per completed cycle, fires a restart (calling
  `reset()` on the learning rule) exactly when `epoch_number == tNext`,
  and returns the cosine-interpolated rate.

Embedding conventions: Python numbers are modelled with exact arithmetic —
`ℤ` for integer quantities, `ℚ` for the stored hyperparameters and the
restart bookkeeping (every Python float value is a rational), and `ℝ` for
the returned rate, whose formula involves `Real.cos`.  Python's `%` on
integers is floor-mod (`Int.fmod`) and `int(a/b)` truncates toward zero
(`Int.tdiv`).  A call that raises (`% 0` is a `ZeroDivisionError`) is
modelled as `none`.  The learning rule passed to the cosine scheduler is
an abstract type `L` together with its opaque `reset : L → L` operation,
so the embedding records exactly which interactions the scheduler can
perform on it.
-/

/-- The learning rule's mutable `learning_rate` attribute, as seen by
`ConstantLearningRateScheduler.update_learning_rule`. -/
structure LearningRuleState where
  learning_rate : ℚ
deriving DecidableEq

/-- `ConstantLearningRateScheduler.__init__` stores one fixed rate. -/
structure ConstantLearningRateScheduler where
  learning_rate : ℚ
deriving DecidableEq

/-- `ConstantLearningRateScheduler.update_learning_rule`: assigns
`learning_rule.learning_rate = self.learning_rate` and returns `None`;
the updated learning rule is the whole effect of the call. -/
def ConstantLearningRateScheduler.update_learning_rule
    (self : ConstantLearningRateScheduler) (learning_rule : LearningRuleState)
    (_epoch_number : ℤ) : LearningRuleState :=
  { learning_rule with learning_rate := self.learning_rate }

/-- State of `CosineAnnealingWithWarmRestarts`: the five constructor
hyperparameters followed by the mutable bookkeeping fields
`tNext` (next restart epoch), `tPeriod` (current period length),
`tCur` (epoch since last restart) and `t` (cycle count). -/
structure CosineAnnealingWithWarmRestarts where
  min_learning_rate : ℚ
  max_learning_rate : ℚ
  total_epochs_per_period : ℤ
  max_learning_rate_discount_factor : ℚ
  period_iteration_expansion_factor : ℚ
  tNext : ℚ
  tPeriod : ℚ
  tCur : ℤ
  t : ℤ
deriving DecidableEq

/-- `CosineAnnealingWithWarmRestarts.__init__`: stores the hyperparameters
and initialises `tNext = tPeriod = total_epochs_per_period`, `tCur = 0`,
`t = 0`.  No validation is performed. -/
def CosineAnnealingWithWarmRestarts.init (min_learning_rate max_learning_rate : ℚ)
    (total_iters_per_period : ℤ)
    (max_learning_rate_discount_factor period_iteration_expansion_factor : ℚ) :
    CosineAnnealingWithWarmRestarts :=
  { min_learning_rate := min_learning_rate
    max_learning_rate := max_learning_rate
    total_epochs_per_period := total_iters_per_period
    max_learning_rate_discount_factor := max_learning_rate_discount_factor
    period_iteration_expansion_factor := period_iteration_expansion_factor
    tNext := total_iters_per_period
    tPeriod := total_iters_per_period
    tCur := 0
    t := 0 }

/-- Everything one `update_learning_rule` call computes apart from the
real-valued rate: the `tCur` value fed to the cosine formula (after the
restart branch), the `effective_max_learning_rate`, how many times
`learning_rule.reset()` was invoked, and the scheduler state after the
call (including the trailing `tCur += 1`). -/
structure StepInfo where
  tCurUsed : ℤ
  effMax : ℚ
  resetCalls : ℕ
  next : CosineAnnealingWithWarmRestarts
deriving DecidableEq

/-- The integer/rational part of `CosineAnnealingWithWarmRestarts.update_learning_rule`
(lines 73–93 of `schedulers.py`): `tCur = epoch_number % total_epochs_per_period`
(floor-mod; `none` when the period is `0`, where Python raises
`ZeroDivisionError`), `t = int(epoch_number / total_epochs_per_period)`
(truncating division), `effective_max_learning_rate` obtained by multiplying
`max_learning_rate` by the discount factor `t` times, then the restart
branch when `epoch_number == tNext` (expand `tPeriod`, advance `tNext` by the
expanded period, bump `t`, zero `tCur`, call `reset()`), and finally the
trailing `tCur += 1`. -/
def CosineAnnealingWithWarmRestarts.step (self : CosineAnnealingWithWarmRestarts)
    (epoch_number : ℤ) : Option StepInfo :=
  if self.total_epochs_per_period = 0 then
    none
  else
    let tCur0 : ℤ := Int.fmod epoch_number self.total_epochs_per_period
    let t0 : ℤ := Int.tdiv epoch_number self.total_epochs_per_period
    let effective_max_learning_rate : ℚ :=
      self.max_learning_rate * self.max_learning_rate_discount_factor ^ t0.toNat
    if (epoch_number : ℚ) = self.tNext then
      let tPeriod1 : ℚ := self.tPeriod * self.period_iteration_expansion_factor
      some { tCurUsed := 0
             effMax := effective_max_learning_rate
             resetCalls := 1
             next := { self with tPeriod := tPeriod1
                                 tNext := self.tNext + tPeriod1
                                 t := t0 + 1
                                 tCur := 0 + 1 } }
    else
      some { tCurUsed := tCur0
             effMax := effective_max_learning_rate
             resetCalls := 0
             next := { self with t := t0, tCur := tCur0 + 1 } }

/-- Line 92 of `schedulers.py`: the cosine-interpolated rate
`min + 0.5 * (effective_max - min) * (1 + cos(pi * tCur / total_epochs_per_period))`. -/
noncomputable def cosineRate (min_learning_rate effective_max_learning_rate : ℚ)
    (total_epochs_per_period tCur : ℤ) : ℝ :=
  (min_learning_rate : ℝ) +
    0.5 * ((effective_max_learning_rate : ℝ) - (min_learning_rate : ℝ)) *
      (1 + Real.cos (Real.pi * ((tCur : ℝ) / (total_epochs_per_period : ℝ))))

/-- `CosineAnnealingWithWarmRestarts.update_learning_rule`: one call on a
learning rule of abstract type `L` whose only operation visible to the
scheduler is `reset`.  Returns the rate `h`, the scheduler state after the
call, the learning rule after the call (`reset` applied once per
invocation recorded in the step), and the number of `reset()` invocations;
`none` models the `ZeroDivisionError` raised when the period is `0`. -/
noncomputable def CosineAnnealingWithWarmRestarts.update_learning_rule {L : Type}
    (reset : L → L) (self : CosineAnnealingWithWarmRestarts) (learning_rule : L)
    (epoch_number : ℤ) : Option (ℝ × CosineAnnealingWithWarmRestarts × L × ℕ) :=
  (self.step epoch_number).map fun info =>
    (cosineRate self.min_learning_rate info.effMax self.total_epochs_per_period
        info.tCurUsed,
     info.next,
     reset^[info.resetCalls] learning_rule,
     info.resetCalls)

/-- A sequence of `update_learning_rule` calls, tracking only the scheduler
state (the rate and the learning rule do not feed back into it). -/
def runSteps (self : CosineAnnealingWithWarmRestarts) (epochs : List ℤ) :
    Option CosineAnnealingWithWarmRestarts :=
  epochs.foldlM (fun s n => (s.step n).map StepInfo.next) self

lemma update_eq_of_step {L : Type} (reset : L → L)
    (self : CosineAnnealingWithWarmRestarts) (l : L) (n : ℤ) (info : StepInfo)
    (h : self.step n = some info) :
    self.update_learning_rule reset l n =
      some (cosineRate self.min_learning_rate info.effMax
              self.total_epochs_per_period info.tCurUsed,
            info.next, reset^[info.resetCalls] l, info.resetCalls) := by
  simp [CosineAnnealingWithWarmRestarts.update_learning_rule, h]

lemma cosineRate_tCur_zero (m e : ℚ) (p : ℤ) :
    cosineRate m e p 0 = (e : ℝ) := by
  simp [cosineRate]
  norm_num
  ring

lemma step_of_restart (s : CosineAnnealingWithWarmRestarts) (n : ℤ)
    (hp : s.total_epochs_per_period ≠ 0) (h : (n : ℚ) = s.tNext) :
    s.step n = some ⟨0,
      s.max_learning_rate *
        s.max_learning_rate_discount_factor ^ (Int.tdiv n s.total_epochs_per_period).toNat,
      1,
      { s with tPeriod := s.tPeriod * s.period_iteration_expansion_factor
               tNext := s.tNext + s.tPeriod * s.period_iteration_expansion_factor
               t := Int.tdiv n s.total_epochs_per_period + 1
               tCur := 0 + 1 }⟩ := by
  simp [CosineAnnealingWithWarmRestarts.step, hp, h]

lemma step_of_no_restart (s : CosineAnnealingWithWarmRestarts) (n : ℤ)
    (hp : s.total_epochs_per_period ≠ 0) (h : ¬((n : ℚ) = s.tNext)) :
    s.step n = some ⟨Int.fmod n s.total_epochs_per_period,
      s.max_learning_rate *
        s.max_learning_rate_discount_factor ^ (Int.tdiv n s.total_epochs_per_period).toNat,
      0,
      { s with t := Int.tdiv n s.total_epochs_per_period
               tCur := Int.fmod n s.total_epochs_per_period + 1 }⟩ := by
  simp [CosineAnnealingWithWarmRestarts.step, hp, h]

lemma step_of_period_zero (s : CosineAnnealingWithWarmRestarts) (n : ℤ)
    (hp : s.total_epochs_per_period = 0) : s.step n = none := by
  simp [CosineAnnealingWithWarmRestarts.step, hp]

/-- C1: for every valid configuration (`min_rate ≤ max_rate`,
`base_period > 0`), the first call `update(0)` returns exactly
`max_rate`: position `0`, cycle count `0`, no discount, cosine term `1`. -/
theorem spec_c1_first_update_returns_max_rate {L : Type} (reset : L → L) (l : L)
    (a b d e : ℚ) (p : ℤ) (hab : a ≤ b) (hp : 0 < p) :
    (CosineAnnealingWithWarmRestarts.init a b p d e).update_learning_rule reset l 0 =
      some ((b : ℝ), ⟨a, b, p, d, e, p, p, 1, 0⟩, l, 0) := by
  have hp0 : (p : ℚ) ≠ 0 := by exact_mod_cast hp.ne'
  have hstep : (CosineAnnealingWithWarmRestarts.init a b p d e).step 0 =
      some ⟨0, b * d ^ (0 : ℕ), 0, ⟨a, b, p, d, e, p, p, 1, 0⟩⟩ := by
    simp [CosineAnnealingWithWarmRestarts.step, CosineAnnealingWithWarmRestarts.init,
      hp.ne', hp0.symm, Int.zero_fmod, Int.zero_tdiv]
  rw [update_eq_of_step _ _ _ _ _ hstep]
  simp [CosineAnnealingWithWarmRestarts.init, cosineRate_tCur_zero]

/-- C1 witness: concrete instantiation at `min_rate = 0`, `max_rate = 1`,
`base_period = 10`, `discount = 1`, `expansion = 1`. -/
theorem spec_c1_first_update_returns_max_rate_witness :
    (CosineAnnealingWithWarmRestarts.init 0 1 10 1 1).update_learning_rule
        (id : Unit → Unit) () 0 =
      some (((1 : ℚ) : ℝ), ⟨0, 1, 10, 1, 1, ((10 : ℤ) : ℚ), ((10 : ℤ) : ℚ), 1, 0⟩, (), 0) :=
  spec_c1_first_update_returns_max_rate id () 0 1 1 1 10 (by norm_num) (by norm_num)

/-- C7 counterexample: the claim says the constant-rate policy's update has
no side effects and no state mutation, but the code writes the configured
rate into the learning rule's `learning_rate` attribute (and returns
`None`): a learning rule holding rate `1/2` is mutated by a scheduler
configured with `1/100`. -/
theorem spec_c7_counterexample :
    ConstantLearningRateScheduler.update_learning_rule ⟨1/100⟩ ⟨1/2⟩ 3 ≠ ⟨1/2⟩ := by
  simp [ConstantLearningRateScheduler.update_learning_rule]

/-- C7 amended: for every epoch_number `n` (including zero and negative
values), the constant scheduler's update sets the learning rule's
`learning_rate` field to the fixed configured rate; it returns nothing and
mutates no scheduler state (the scheduler object is not touched), its only
effect being that single field write. -/
theorem spec_c7_amended (c : ConstantLearningRateScheduler)
    (lr : LearningRuleState) (n : ℤ) :
    c.update_learning_rule lr n = ⟨c.learning_rate⟩ := rfl

/-- C8 counterexample: a negative epoch_number does not fail fast: with the
configuration `(0, 1, 10, 1, 1)`, `update(-5)` succeeds (no error), using
the floor-modulus position `(-5) mod 10 = 5`. -/
theorem spec_c8_counterexample :
    ((CosineAnnealingWithWarmRestarts.init 0 1 10 1 1).update_learning_rule
        (id : Unit → Unit) () (-5)).isSome = true ∧
      (CosineAnnealingWithWarmRestarts.init 0 1 10 1 1).step (-5) =
        some ⟨5, 1, 0, ⟨0, 1, 10, 1, 1, 10, 10, 6, 0⟩⟩ := by
  have h : (CosineAnnealingWithWarmRestarts.init 0 1 10 1 1).step (-5) =
      some ⟨5, 1, 0, ⟨0, 1, 10, 1, 1, 10, 10, 6, 0⟩⟩ := by
    norm_num [CosineAnnealingWithWarmRestarts.step, CosineAnnealingWithWarmRestarts.init,
      (by decide : Int.fmod (-5) 10 = (5 : ℤ)), (by decide : Int.tdiv (-5) 10 = (0 : ℤ))]
  refine ⟨?_, h⟩
  rw [update_eq_of_step (id : Unit → Unit) _ () (-5) _ h]
  rfl

/-- C8 amended: for every negative epoch_number and positive base period,
the warm-restart scheduler's update silently succeeds: no validation error
is raised, and the position fed to the rate formula is the (non-negative)
floor modulus of the epoch by the base period — `0` if a restart happens to
fire. -/
theorem spec_c8_amended {L : Type} (reset : L → L)
    (s : CosineAnnealingWithWarmRestarts) (l : L) (n : ℤ) (hn : n < 0)
    (hp : 0 < s.total_epochs_per_period) :
    ∃ info, s.step n = some info ∧
      s.update_learning_rule reset l n =
        some (cosineRate s.min_learning_rate info.effMax
                s.total_epochs_per_period info.tCurUsed,
              info.next, reset^[info.resetCalls] l, info.resetCalls) ∧
      info.tCurUsed =
        (if (n : ℚ) = s.tNext then 0 else Int.fmod n s.total_epochs_per_period) ∧
      0 ≤ info.tCurUsed := by
  by_cases hres : (n : ℚ) = s.tNext
  · refine ⟨_, step_of_restart s n hp.ne' hres, ?_, ?_, ?_⟩
    · exact update_eq_of_step reset s l n _ (step_of_restart s n hp.ne' hres)
    · simp [hres]
    · simp
  · refine ⟨_, step_of_no_restart s n hp.ne' hres, ?_, ?_, ?_⟩
    · exact update_eq_of_step reset s l n _ (step_of_no_restart s n hp.ne' hres)
    · simp [hres]
    · show 0 ≤ Int.fmod n s.total_epochs_per_period
      rw [Int.fmod_eq_emod n hp.le]
      exact Int.emod_nonneg n hp.ne'

/-- C8 witness: concrete instantiation of the amended claim at epoch `-5`
with configuration `(0, 1, 10, 1, 1)` and a counting learning rule. -/
theorem spec_c8_amended_witness :
    ∃ info, (CosineAnnealingWithWarmRestarts.init 0 1 10 1 1).step (-5) = some info ∧
      (CosineAnnealingWithWarmRestarts.init 0 1 10 1 1).update_learning_rule Nat.succ 0 (-5) =
        some (cosineRate (CosineAnnealingWithWarmRestarts.init 0 1 10 1 1).min_learning_rate
                info.effMax
                (CosineAnnealingWithWarmRestarts.init 0 1 10 1 1).total_epochs_per_period
                info.tCurUsed,
              info.next, Nat.succ^[info.resetCalls] 0, info.resetCalls) ∧
      info.tCurUsed =
        (if ((-5 : ℤ) : ℚ) = (CosineAnnealingWithWarmRestarts.init 0 1 10 1 1).tNext then 0
         else Int.fmod (-5)
            (CosineAnnealingWithWarmRestarts.init 0 1 10 1 1).total_epochs_per_period) ∧
      0 ≤ info.tCurUsed :=
  spec_c8_amended Nat.succ _ 0 (-5) (by decide) (by decide)

/-- C9 counterexample: a negative `base_period` does not fail at
construction or first use: with `base_period = -10` the first call
`update(0)` succeeds and returns a rate. -/
theorem spec_c9_counterexample :
    ((CosineAnnealingWithWarmRestarts.init 0 1 (-10) 1 1).update_learning_rule
        (id : Unit → Unit) () 0).isSome = true := by
  have h := step_of_no_restart (CosineAnnealingWithWarmRestarts.init 0 1 (-10) 1 1) 0
    (by decide) (by norm_num [CosineAnnealingWithWarmRestarts.init])
  rw [update_eq_of_step (id : Unit → Unit) _ () 0 _ h]
  rfl

/-- C9 amended: only `base_period = 0` fails, and it fails on the first
`update` call (the `% 0` raises), surfaced to the caller as an error;
construction never validates, and a negative `base_period` is silently
accepted. -/
theorem spec_c9_amended {L : Type} (reset : L → L)
    (s : CosineAnnealingWithWarmRestarts) (l : L) (n : ℤ)
    (h : s.total_epochs_per_period = 0) :
    s.update_learning_rule reset l n = none := by
  simp [CosineAnnealingWithWarmRestarts.update_learning_rule, step_of_period_zero s n h]

/-- C9 witness: the zero-period configuration errors on its first update. -/
theorem spec_c9_amended_witness :
    (CosineAnnealingWithWarmRestarts.init 0 1 0 1 1).update_learning_rule
      (id : Unit → Unit) () 0 = none :=
  spec_c9_amended id _ () 0 (by decide)

lemma runSteps_nil (s : CosineAnnealingWithWarmRestarts) : runSteps s [] = some s := rfl

lemma runSteps_cons (s : CosineAnnealingWithWarmRestarts) (n : ℤ) (l : List ℤ) :
    runSteps s (n :: l) = (s.step n).bind fun i => runSteps i.next l := by
  cases h : s.step n <;>
    simp [runSteps, List.foldlM_cons, h, Option.bind]

lemma runSteps_append (s : CosineAnnealingWithWarmRestarts) (l₁ l₂ : List ℤ) :
    runSteps s (l₁ ++ l₂) = (runSteps s l₁).bind fun s₁ => runSteps s₁ l₂ := by
  simp [runSteps, List.foldlM_append, Option.bind]

/-- Non-restart calls leave every field except `tCur` and `t` unchanged. -/
lemma runSteps_no_restart (s : CosineAnnealingWithWarmRestarts) (l : List ℤ)
    (hp : s.total_epochs_per_period ≠ 0) (h : ∀ k ∈ l, ((k : ℚ) ≠ s.tNext)) :
    ∃ s₁, runSteps s l = some s₁ ∧
      s₁.min_learning_rate = s.min_learning_rate ∧
      s₁.max_learning_rate = s.max_learning_rate ∧
      s₁.total_epochs_per_period = s.total_epochs_per_period ∧
      s₁.max_learning_rate_discount_factor = s.max_learning_rate_discount_factor ∧
      s₁.period_iteration_expansion_factor = s.period_iteration_expansion_factor ∧
      s₁.tNext = s.tNext ∧ s₁.tPeriod = s.tPeriod := by
  induction l generalizing s with
  | nil => exact ⟨s, rfl, rfl, rfl, rfl, rfl, rfl, rfl, rfl⟩
  | cons a l ih =>
    have hstep := step_of_no_restart s a hp (h a (by simp))
    obtain ⟨s₁, hrun, h1, h2, h3, h4, h5, h6, h7⟩ :=
      ih { s with t := Int.tdiv a s.total_epochs_per_period
                  tCur := Int.fmod a s.total_epochs_per_period + 1 }
        hp (fun k hk => h k (by simp [hk]))
    refine ⟨s₁, ?_, h1, h2, h3, h4, h5, h6, h7⟩
    rw [runSteps_cons, hstep, Option.some_bind]
    exact hrun

/-- A run of non-restart calls ending at epoch `m` puts the scheduler in
the state obtained from `s` by recomputing `t` and `tCur` from `m`. -/
lemma runSteps_last (s : CosineAnnealingWithWarmRestarts) (l : List ℤ) (m : ℤ)
    (hp : s.total_epochs_per_period ≠ 0) (h : ∀ k ∈ l, ((k : ℚ) ≠ s.tNext))
    (hm : (m : ℚ) ≠ s.tNext) :
    runSteps s (l ++ [m]) =
      some { s with t := Int.tdiv m s.total_epochs_per_period
                    tCur := Int.fmod m s.total_epochs_per_period + 1 } := by
  obtain ⟨s₁, hrun, h1, h2, h3, h4, h5, h6, h7⟩ := runSteps_no_restart s l hp h
  rw [runSteps_append, hrun, Option.some_bind, runSteps_cons,
    step_of_no_restart s₁ m (h3 ▸ hp) (h6 ▸ hm), Option.some_bind, runSteps_nil]
  simp only [h1, h2, h3, h4, h5, h6, h7]

lemma cosineRate_half_period (m e : ℚ) :
    cosineRate m e 10 5 = (m : ℝ) + 0.5 * ((e : ℝ) - (m : ℝ)) := by
  unfold cosineRate
  have h5 : (((5 : ℤ) : ℝ) / ((10 : ℤ) : ℝ)) = 1 / 2 := by norm_num
  rw [h5, mul_one_div, Real.cos_pi_div_two]
  ring


/-- C2: concrete scenarios with `min_rate = 0`, `max_rate = 1`,
`base_period = 10`, `expansion_factor = 1`, and updates called in order at
epochs `0, 1, 2, ...`: with `discount_factor = 1`, `update(0) = 1`,
`update(5) = 1/2`, and `update(10)` fires a restart (one `reset()` call,
the fourth tuple component) and returns `1`; with `discount_factor = 1/2`,
`update(10)` fires a restart and returns `1/2`, and `update(20)` fires a
second restart and returns `1/4`.  Each intermediate scheduler state is
pinned explicitly. -/
theorem spec_c2_concrete_scenarios :
    ((CosineAnnealingWithWarmRestarts.init 0 1 10 1 1).update_learning_rule
        (id : Unit → Unit) () 0 =
      some ((1 : ℝ), ⟨0, 1, 10, 1, 1, 10, 10, 1, 0⟩, (), 0)) ∧
    (runSteps (CosineAnnealingWithWarmRestarts.init 0 1 10 1 1) [0, 1, 2, 3, 4] =
        some ⟨0, 1, 10, 1, 1, 10, 10, 5, 0⟩ ∧
      (⟨0, 1, 10, 1, 1, 10, 10, 5, 0⟩ :
          CosineAnnealingWithWarmRestarts).update_learning_rule (id : Unit → Unit) () 5 =
        some ((1 / 2 : ℝ), ⟨0, 1, 10, 1, 1, 10, 10, 6, 0⟩, (), 0)) ∧
    (runSteps (CosineAnnealingWithWarmRestarts.init 0 1 10 1 1)
        [0, 1, 2, 3, 4, 5, 6, 7, 8, 9] = some ⟨0, 1, 10, 1, 1, 10, 10, 10, 0⟩ ∧
      (⟨0, 1, 10, 1, 1, 10, 10, 10, 0⟩ :
          CosineAnnealingWithWarmRestarts).update_learning_rule (id : Unit → Unit) () 10 =
        some ((1 : ℝ), ⟨0, 1, 10, 1, 1, 20, 10, 1, 2⟩, (), 1)) ∧
    (runSteps (CosineAnnealingWithWarmRestarts.init 0 1 10 (1/2) 1)
        [0, 1, 2, 3, 4, 5, 6, 7, 8, 9] = some ⟨0, 1, 10, 1/2, 1, 10, 10, 10, 0⟩ ∧
      (⟨0, 1, 10, 1/2, 1, 10, 10, 10, 0⟩ :
          CosineAnnealingWithWarmRestarts).update_learning_rule (id : Unit → Unit) () 10 =
        some ((1 / 2 : ℝ), ⟨0, 1, 10, 1/2, 1, 20, 10, 1, 2⟩, (), 1)) ∧
    (runSteps (CosineAnnealingWithWarmRestarts.init 0 1 10 (1/2) 1)
        [0, 1, 2, 3, 4, 5, 6, 7, 8, 9, 10, 11, 12, 13, 14, 15, 16, 17, 18, 19] =
          some ⟨0, 1, 10, 1/2, 1, 20, 10, 10, 1⟩ ∧
      (⟨0, 1, 10, 1/2, 1, 20, 10, 10, 1⟩ :
          CosineAnnealingWithWarmRestarts).update_learning_rule (id : Unit → Unit) () 20 =
        some ((1 / 4 : ℝ), ⟨0, 1, 10, 1/2, 1, 30, 10, 1, 3⟩, (), 1)) := by
  have hstepA0 : (CosineAnnealingWithWarmRestarts.init 0 1 10 1 1).step 0 =
      some ⟨0, 1, 0, ⟨0, 1, 10, 1, 1, 10, 10, 1, 0⟩⟩ := by
    rw [step_of_no_restart _ 0 (by decide)
      (by norm_num [CosineAnnealingWithWarmRestarts.init])]
    norm_num [CosineAnnealingWithWarmRestarts.init, StepInfo.mk.injEq,
      CosineAnnealingWithWarmRestarts.mk.injEq,
      show Int.fmod 0 10 = (0 : ℤ) from by decide,
      show Int.tdiv 0 10 = (0 : ℤ) from by decide]
  have hrunA5 : runSteps (CosineAnnealingWithWarmRestarts.init 0 1 10 1 1)
      [0, 1, 2, 3, 4] = some ⟨0, 1, 10, 1, 1, 10, 10, 5, 0⟩ := by
    have h := runSteps_last (CosineAnnealingWithWarmRestarts.init 0 1 10 1 1)
      [0, 1, 2, 3] 4 (by decide)
      (by intro k hk; fin_cases hk <;> norm_num [CosineAnnealingWithWarmRestarts.init])
      (by norm_num [CosineAnnealingWithWarmRestarts.init])
    rw [show ([0, 1, 2, 3, 4] : List ℤ) = [0, 1, 2, 3] ++ [4] from rfl, h]
    norm_num [CosineAnnealingWithWarmRestarts.init, CosineAnnealingWithWarmRestarts.mk.injEq,
      show Int.fmod 4 10 = (4 : ℤ) from by decide,
      show Int.tdiv 4 10 = (0 : ℤ) from by decide]
  have hstepA5 : (⟨0, 1, 10, 1, 1, 10, 10, 5, 0⟩ :
      CosineAnnealingWithWarmRestarts).step 5 =
      some ⟨5, 1, 0, ⟨0, 1, 10, 1, 1, 10, 10, 6, 0⟩⟩ := by
    rw [step_of_no_restart _ 5 (by decide) (by norm_num)]
    norm_num [StepInfo.mk.injEq, CosineAnnealingWithWarmRestarts.mk.injEq,
      show Int.fmod 5 10 = (5 : ℤ) from by decide,
      show Int.tdiv 5 10 = (0 : ℤ) from by decide]
  have hrunA10 : runSteps (CosineAnnealingWithWarmRestarts.init 0 1 10 1 1)
      [0, 1, 2, 3, 4, 5, 6, 7, 8, 9] = some ⟨0, 1, 10, 1, 1, 10, 10, 10, 0⟩ := by
    have h := runSteps_last (CosineAnnealingWithWarmRestarts.init 0 1 10 1 1)
      [0, 1, 2, 3, 4, 5, 6, 7, 8] 9 (by decide)
      (by intro k hk; fin_cases hk <;> norm_num [CosineAnnealingWithWarmRestarts.init])
      (by norm_num [CosineAnnealingWithWarmRestarts.init])
    rw [show ([0, 1, 2, 3, 4, 5, 6, 7, 8, 9] : List ℤ) =
      [0, 1, 2, 3, 4, 5, 6, 7, 8] ++ [9] from rfl, h]
    norm_num [CosineAnnealingWithWarmRestarts.init, CosineAnnealingWithWarmRestarts.mk.injEq,
      show Int.fmod 9 10 = (9 : ℤ) from by decide,
      show Int.tdiv 9 10 = (0 : ℤ) from by decide]
  have hstepA10 : (⟨0, 1, 10, 1, 1, 10, 10, 10, 0⟩ :
      CosineAnnealingWithWarmRestarts).step 10 =
      some ⟨0, 1, 1, ⟨0, 1, 10, 1, 1, 20, 10, 1, 2⟩⟩ := by
    rw [step_of_restart _ 10 (by decide) (by norm_num)]
    norm_num [StepInfo.mk.injEq, CosineAnnealingWithWarmRestarts.mk.injEq,
      show (Int.tdiv 10 10).toNat = 1 from by decide,
      show Int.tdiv 10 10 = (1 : ℤ) from by decide]
  have hrunB10 : runSteps (CosineAnnealingWithWarmRestarts.init 0 1 10 (1/2) 1)
      [0, 1, 2, 3, 4, 5, 6, 7, 8, 9] = some ⟨0, 1, 10, 1/2, 1, 10, 10, 10, 0⟩ := by
    have h := runSteps_last (CosineAnnealingWithWarmRestarts.init 0 1 10 (1/2) 1)
      [0, 1, 2, 3, 4, 5, 6, 7, 8] 9 (by decide)
      (by intro k hk; fin_cases hk <;> norm_num [CosineAnnealingWithWarmRestarts.init])
      (by norm_num [CosineAnnealingWithWarmRestarts.init])
    rw [show ([0, 1, 2, 3, 4, 5, 6, 7, 8, 9] : List ℤ) =
      [0, 1, 2, 3, 4, 5, 6, 7, 8] ++ [9] from rfl, h]
    norm_num [CosineAnnealingWithWarmRestarts.init, CosineAnnealingWithWarmRestarts.mk.injEq,
      show Int.fmod 9 10 = (9 : ℤ) from by decide,
      show Int.tdiv 9 10 = (0 : ℤ) from by decide]
  have hstepB10 : (⟨0, 1, 10, 1/2, 1, 10, 10, 10, 0⟩ :
      CosineAnnealingWithWarmRestarts).step 10 =
      some ⟨0, 1/2, 1, ⟨0, 1, 10, 1/2, 1, 20, 10, 1, 2⟩⟩ := by
    rw [step_of_restart _ 10 (by decide) (by norm_num)]
    norm_num [StepInfo.mk.injEq, CosineAnnealingWithWarmRestarts.mk.injEq,
      show (Int.tdiv 10 10).toNat = 1 from by decide,
      show Int.tdiv 10 10 = (1 : ℤ) from by decide]
  have hrunB19 : runSteps (⟨0, 1, 10, 1/2, 1, 20, 10, 1, 2⟩ :
      CosineAnnealingWithWarmRestarts) [11, 12, 13, 14, 15, 16, 17, 18, 19] =
      some ⟨0, 1, 10, 1/2, 1, 20, 10, 10, 1⟩ := by
    have h := runSteps_last (⟨0, 1, 10, 1/2, 1, 20, 10, 1, 2⟩ :
        CosineAnnealingWithWarmRestarts) [11, 12, 13, 14, 15, 16, 17, 18] 19 (by decide)
      (by intro k hk; fin_cases hk <;> norm_num) (by norm_num)
    rw [show ([11, 12, 13, 14, 15, 16, 17, 18, 19] : List ℤ) =
      [11, 12, 13, 14, 15, 16, 17, 18] ++ [19] from rfl, h]
    norm_num [CosineAnnealingWithWarmRestarts.mk.injEq,
      show Int.fmod 19 10 = (9 : ℤ) from by decide,
      show Int.tdiv 19 10 = (1 : ℤ) from by decide]
  have hstepB20 : (⟨0, 1, 10, 1/2, 1, 20, 10, 10, 1⟩ :
      CosineAnnealingWithWarmRestarts).step 20 =
      some ⟨0, 1/4, 1, ⟨0, 1, 10, 1/2, 1, 30, 10, 1, 3⟩⟩ := by
    rw [step_of_restart _ 20 (by decide) (by norm_num)]
    norm_num [StepInfo.mk.injEq, CosineAnnealingWithWarmRestarts.mk.injEq,
      show (Int.tdiv 20 10).toNat = 2 from by decide,
      show Int.tdiv 20 10 = (2 : ℤ) from by decide,
      show Int.toNat 2 = 2 from by decide]
  refine ⟨?_, ⟨hrunA5, ?_⟩, ⟨hrunA10, ?_⟩, ⟨hrunB10, ?_⟩, ⟨?_, ?_⟩⟩
  · rw [update_eq_of_step id _ () 0 _ hstepA0]
    norm_num [CosineAnnealingWithWarmRestarts.init, cosineRate_tCur_zero]
  · rw [update_eq_of_step id _ () 5 _ hstepA5]
    norm_num [cosineRate_half_period]
  · rw [update_eq_of_step id _ () 10 _ hstepA10]
    norm_num [cosineRate_tCur_zero, Function.iterate_one]
  · rw [update_eq_of_step id _ () 10 _ hstepB10]
    norm_num [cosineRate_tCur_zero, Function.iterate_one]
  · rw [show ([0, 1, 2, 3, 4, 5, 6, 7, 8, 9, 10, 11, 12, 13, 14, 15, 16, 17, 18, 19] :
        List ℤ) = [0, 1, 2, 3, 4, 5, 6, 7, 8, 9] ++
          (10 :: [11, 12, 13, 14, 15, 16, 17, 18, 19]) from rfl,
      runSteps_append, hrunB10, Option.some_bind, runSteps_cons, hstepB10,
      Option.some_bind]
    exact hrunB19
  · rw [update_eq_of_step id _ () 20 _ hstepB20]
    norm_num [cosineRate_tCur_zero, Function.iterate_one]

/-- C3: on every call (with a nonzero period, otherwise the call raises
before reaching the restart check), `reset()` is invoked exactly once if
`epoch_number` equals the stored `tNext` and not at all otherwise, and at
a restart the position used by the rate formula is `0`, so the call
returns the (possibly discounted) effective peak rate of that cycle. -/
theorem spec_c3_reset_iff_restart {L : Type} (reset : L → L)
    (s : CosineAnnealingWithWarmRestarts) (l : L) (n : ℤ)
    (hp : s.total_epochs_per_period ≠ 0) :
    ∃ info, s.step n = some info ∧
      (info.resetCalls = if (n : ℚ) = s.tNext then 1 else 0) ∧
      ((n : ℚ) = s.tNext →
        info.tCurUsed = 0 ∧
        s.update_learning_rule reset l n =
          some ((info.effMax : ℝ), info.next, reset l, 1)) := by
  by_cases hres : (n : ℚ) = s.tNext
  · refine ⟨_, step_of_restart s n hp hres, ?_, fun _ => ⟨rfl, ?_⟩⟩
    · simp [hres]
    · rw [update_eq_of_step reset s l n _ (step_of_restart s n hp hres)]
      rw [show (⟨0, s.max_learning_rate * s.max_learning_rate_discount_factor ^
          (Int.tdiv n s.total_epochs_per_period).toNat, 1,
          { s with tPeriod := s.tPeriod * s.period_iteration_expansion_factor
                   tNext := s.tNext + s.tPeriod * s.period_iteration_expansion_factor
                   t := Int.tdiv n s.total_epochs_per_period + 1
                   tCur := 0 + 1 }⟩ : StepInfo).tCurUsed = 0 from rfl]
      rw [cosineRate_tCur_zero]
      simp [Function.iterate_one]
  · refine ⟨_, step_of_no_restart s n hp hres, ?_, fun h => absurd h hres⟩
    simp [hres]

/-- C3 witness: the restart at epoch 10 on a fresh `(0, 1, 10, 1, 1)`
scheduler, with a counting learning rule. -/
theorem spec_c3_reset_iff_restart_witness :
    ∃ info, (CosineAnnealingWithWarmRestarts.init 0 1 10 1 1).step 10 = some info ∧
      (info.resetCalls =
        if ((10 : ℤ) : ℚ) = (CosineAnnealingWithWarmRestarts.init 0 1 10 1 1).tNext
        then 1 else 0) ∧
      (((10 : ℤ) : ℚ) = (CosineAnnealingWithWarmRestarts.init 0 1 10 1 1).tNext →
        info.tCurUsed = 0 ∧
        (CosineAnnealingWithWarmRestarts.init 0 1 10 1 1).update_learning_rule
            Nat.succ 0 10 =
          some ((info.effMax : ℝ), info.next, Nat.succ 0, 1)) :=
  spec_c3_reset_iff_restart Nat.succ _ 0 10 (by decide)

/-- C10: the scheduler's whole interaction with the learning rule is the
`reset()` call at restart epochs — the learning rule after the call is
`reset l` exactly at a restart and `l` (untouched, in particular its
`learning_rate` is not written) otherwise — and the five configured
hyperparameters are unchanged by the call. -/
theorem spec_c10_frame {L : Type} (reset : L → L)
    (s : CosineAnnealingWithWarmRestarts) (l : L) (n : ℤ)
    (r : ℝ) (s₁ : CosineAnnealingWithWarmRestarts) (l₁ : L) (k : ℕ)
    (h : s.update_learning_rule reset l n = some (r, s₁, l₁, k)) :
    (l₁ = if (n : ℚ) = s.tNext then reset l else l) ∧ k ≤ 1 ∧
    s₁.min_learning_rate = s.min_learning_rate ∧
    s₁.max_learning_rate = s.max_learning_rate ∧
    s₁.total_epochs_per_period = s.total_epochs_per_period ∧
    s₁.max_learning_rate_discount_factor = s.max_learning_rate_discount_factor ∧
    s₁.period_iteration_expansion_factor = s.period_iteration_expansion_factor := by
  by_cases hp : s.total_epochs_per_period = 0
  · simp [CosineAnnealingWithWarmRestarts.update_learning_rule,
      step_of_period_zero s n hp] at h
  · by_cases hres : (n : ℚ) = s.tNext
    · rw [update_eq_of_step reset s l n _ (step_of_restart s n hp hres)] at h
      simp only [Option.some.injEq, Prod.mk.injEq] at h
      obtain ⟨-, h2, h3, h4⟩ := h
      subst h2; subst h3; subst h4
      exact ⟨by simp [hres, Function.iterate_one], by norm_num, rfl, rfl, rfl, rfl, rfl⟩
    · rw [update_eq_of_step reset s l n _ (step_of_no_restart s n hp hres)] at h
      simp only [Option.some.injEq, Prod.mk.injEq] at h
      obtain ⟨-, h2, h3, h4⟩ := h
      subst h2; subst h3; subst h4
      exact ⟨by simp [hres], by norm_num, rfl, rfl, rfl, rfl, rfl⟩

/-- C10 witness: the frame conditions at the concrete first call
`update(0)` on a fresh `(0, 1, 10, 1, 1)` scheduler. -/
theorem spec_c10_frame_witness :
    ((() : Unit) =
      if ((0 : ℤ) : ℚ) = (CosineAnnealingWithWarmRestarts.init 0 1 10 1 1).tNext
      then id () else ()) ∧ (0 : ℕ) ≤ 1 ∧
    (⟨0, 1, 10, 1, 1, 10, 10, 1, 0⟩ :
        CosineAnnealingWithWarmRestarts).min_learning_rate =
      (CosineAnnealingWithWarmRestarts.init 0 1 10 1 1).min_learning_rate ∧
    (⟨0, 1, 10, 1, 1, 10, 10, 1, 0⟩ :
        CosineAnnealingWithWarmRestarts).max_learning_rate =
      (CosineAnnealingWithWarmRestarts.init 0 1 10 1 1).max_learning_rate ∧
    (⟨0, 1, 10, 1, 1, 10, 10, 1, 0⟩ :
        CosineAnnealingWithWarmRestarts).total_epochs_per_period =
      (CosineAnnealingWithWarmRestarts.init 0 1 10 1 1).total_epochs_per_period ∧
    (⟨0, 1, 10, 1, 1, 10, 10, 1, 0⟩ :
        CosineAnnealingWithWarmRestarts).max_learning_rate_discount_factor =
      (CosineAnnealingWithWarmRestarts.init 0 1 10 1 1).max_learning_rate_discount_factor ∧
    (⟨0, 1, 10, 1, 1, 10, 10, 1, 0⟩ :
        CosineAnnealingWithWarmRestarts).period_iteration_expansion_factor =
      (CosineAnnealingWithWarmRestarts.init 0 1 10 1 1).period_iteration_expansion_factor :=
  spec_c10_frame id (CosineAnnealingWithWarmRestarts.init 0 1 10 1 1) () 0
    (1 : ℝ) ⟨0, 1, 10, 1, 1, 10, 10, 1, 0⟩ () 0
    (by
      have hstep : (CosineAnnealingWithWarmRestarts.init 0 1 10 1 1).step 0 =
          some ⟨0, 1, 0, ⟨0, 1, 10, 1, 1, 10, 10, 1, 0⟩⟩ := by
        rw [step_of_no_restart _ 0 (by decide)
          (by norm_num [CosineAnnealingWithWarmRestarts.init])]
        norm_num [CosineAnnealingWithWarmRestarts.init, StepInfo.mk.injEq,
          CosineAnnealingWithWarmRestarts.mk.injEq,
          show Int.fmod 0 10 = (0 : ℤ) from by decide,
          show Int.tdiv 0 10 = (0 : ℤ) from by decide]
      rw [update_eq_of_step id _ () 0 _ hstep]
      norm_num [CosineAnnealingWithWarmRestarts.init, cosineRate_tCur_zero])

lemma fmod_add_one_of_not_dvd (n p : ℤ) (hp : 0 < p) (h : ¬ p ∣ (n + 1)) :
    Int.fmod (n + 1) p = Int.fmod n p + 1 := by
  rw [Int.fmod_eq_emod _ hp.le, Int.fmod_eq_emod _ hp.le]
  have h1 : 0 ≤ n % p := Int.emod_nonneg n hp.ne'
  have h2 : n % p < p := Int.emod_lt_of_pos n hp
  have he : p * (n / p) + n % p = n := Int.ediv_add_emod n p
  have hsplit : (n + 1) % p = (n % p + 1) % p := by
    conv_lhs => rw [show n + 1 = (n % p + 1) + p * (n / p) from by linarith]
    rw [Int.add_mul_emod_self_left]
  rcases lt_or_eq_of_le (by omega : n % p + 1 ≤ p) with hlt | heq
  · rw [hsplit, Int.emod_eq_of_lt (by omega) hlt]
  · exfalso
    apply h
    apply Int.dvd_of_emod_eq_zero
    rw [hsplit, heq, Int.emod_self]

/-- C4 counterexample: with `expansion_factor = 2` and consecutive updates
at epochs `0, 1, 2, ...` on the `(0, 1, 10, 1, 2)` configuration, restarts
fire at epochs 10 and 30, and at epoch 20 — strictly between these two
consecutive restarts — no restart fires (`resetCalls = 0`) yet the
position used by the rate formula is `0` again (`tCurUsed = 0`, the third
and first `StepInfo` components below), contradicting the claim that the
position is `0` exactly at restart epochs and keeps incrementing until the
next restart. -/
theorem spec_c4_counterexample :
    runSteps (CosineAnnealingWithWarmRestarts.init 0 1 10 1 2)
        [0, 1, 2, 3, 4, 5, 6, 7, 8, 9] = some ⟨0, 1, 10, 1, 2, 10, 10, 10, 0⟩ ∧
    (⟨0, 1, 10, 1, 2, 10, 10, 10, 0⟩ : CosineAnnealingWithWarmRestarts).step 10 =
      some ⟨0, 1, 1, ⟨0, 1, 10, 1, 2, 30, 20, 1, 2⟩⟩ ∧
    runSteps (⟨0, 1, 10, 1, 2, 30, 20, 1, 2⟩ : CosineAnnealingWithWarmRestarts)
        [11, 12, 13, 14, 15, 16, 17, 18, 19] =
      some ⟨0, 1, 10, 1, 2, 30, 20, 10, 1⟩ ∧
    (⟨0, 1, 10, 1, 2, 30, 20, 10, 1⟩ : CosineAnnealingWithWarmRestarts).step 20 =
      some ⟨0, 1, 0, ⟨0, 1, 10, 1, 2, 30, 20, 1, 2⟩⟩ ∧
    runSteps (⟨0, 1, 10, 1, 2, 30, 20, 1, 2⟩ : CosineAnnealingWithWarmRestarts)
        [21, 22, 23, 24, 25, 26, 27, 28, 29] =
      some ⟨0, 1, 10, 1, 2, 30, 20, 10, 2⟩ ∧
    (⟨0, 1, 10, 1, 2, 30, 20, 10, 2⟩ : CosineAnnealingWithWarmRestarts).step 30 =
      some ⟨0, 1, 1, ⟨0, 1, 10, 1, 2, 70, 40, 1, 4⟩⟩ := by
  refine ⟨?_, ?_, ?_, ?_, ?_, ?_⟩
  · have h := runSteps_last (CosineAnnealingWithWarmRestarts.init 0 1 10 1 2)
      [0, 1, 2, 3, 4, 5, 6, 7, 8] 9 (by decide)
      (by intro k hk; fin_cases hk <;> norm_num [CosineAnnealingWithWarmRestarts.init])
      (by norm_num [CosineAnnealingWithWarmRestarts.init])
    rw [show ([0, 1, 2, 3, 4, 5, 6, 7, 8, 9] : List ℤ) =
      [0, 1, 2, 3, 4, 5, 6, 7, 8] ++ [9] from rfl, h]
    norm_num [CosineAnnealingWithWarmRestarts.init, CosineAnnealingWithWarmRestarts.mk.injEq,
      show Int.fmod 9 10 = (9 : ℤ) from by decide,
      show Int.tdiv 9 10 = (0 : ℤ) from by decide]
  · rw [step_of_restart _ 10 (by decide) (by norm_num)]
    norm_num [StepInfo.mk.injEq, CosineAnnealingWithWarmRestarts.mk.injEq,
      show (Int.tdiv 10 10).toNat = 1 from by decide,
      show Int.tdiv 10 10 = (1 : ℤ) from by decide]
  · have h := runSteps_last (⟨0, 1, 10, 1, 2, 30, 20, 1, 2⟩ :
        CosineAnnealingWithWarmRestarts) [11, 12, 13, 14, 15, 16, 17, 18] 19 (by decide)
      (by intro k hk; fin_cases hk <;> norm_num) (by norm_num)
    rw [show ([11, 12, 13, 14, 15, 16, 17, 18, 19] : List ℤ) =
      [11, 12, 13, 14, 15, 16, 17, 18] ++ [19] from rfl, h]
    norm_num [CosineAnnealingWithWarmRestarts.mk.injEq,
      show Int.fmod 19 10 = (9 : ℤ) from by decide,
      show Int.tdiv 19 10 = (1 : ℤ) from by decide]
  · rw [step_of_no_restart _ 20 (by decide) (by norm_num)]
    norm_num [StepInfo.mk.injEq, CosineAnnealingWithWarmRestarts.mk.injEq,
      show Int.fmod 20 10 = (0 : ℤ) from by decide,
      show Int.tdiv 20 10 = (2 : ℤ) from by decide,
      show Int.toNat 2 = 2 from by decide]
  · have h := runSteps_last (⟨0, 1, 10, 1, 2, 30, 20, 1, 2⟩ :
        CosineAnnealingWithWarmRestarts) [21, 22, 23, 24, 25, 26, 27, 28] 29 (by decide)
      (by intro k hk; fin_cases hk <;> norm_num) (by norm_num)
    rw [show ([21, 22, 23, 24, 25, 26, 27, 28, 29] : List ℤ) =
      [21, 22, 23, 24, 25, 26, 27, 28] ++ [29] from rfl, h]
    norm_num [CosineAnnealingWithWarmRestarts.mk.injEq,
      show Int.fmod 29 10 = (9 : ℤ) from by decide,
      show Int.tdiv 29 10 = (2 : ℤ) from by decide]
  · rw [step_of_restart _ 30 (by decide) (by norm_num)]
    norm_num [StepInfo.mk.injEq, CosineAnnealingWithWarmRestarts.mk.injEq,
      show (Int.tdiv 30 10).toNat = 3 from by decide,
      show Int.tdiv 30 10 = (3 : ℤ) from by decide]

/-- C4 amended: the position used in the rate formula equals
`epoch_number mod base_period` (floor-mod), except at a restart epoch where
it is `0`.  Consequently over consecutive epochs it returns to `0` at
every multiple of `base_period` — also between restarts, when
`expansion_factor ≠ 1` — and otherwise increments by `1` from the previous
epoch's modulus: when the successor epoch is neither a restart epoch nor a
multiple of the base period, its position is the previous position plus
one. -/
theorem spec_c4_amended (s : CosineAnnealingWithWarmRestarts) (n : ℤ)
    (i i₁ : StepInfo) (hp : 0 < s.total_epochs_per_period)
    (h : s.step n = some i) :
    (i.tCurUsed = if (n : ℚ) = s.tNext then 0
      else Int.fmod n s.total_epochs_per_period) ∧
    (i.next.step (n + 1) = some i₁ → ((n : ℚ) ≠ s.tNext) →
      (((n + 1 : ℤ) : ℚ) ≠ i.next.tNext) →
      ¬(s.total_epochs_per_period ∣ (n + 1)) →
      i₁.tCurUsed = i.tCurUsed + 1) := by
  by_cases hres : (n : ℚ) = s.tNext
  · rw [step_of_restart s n hp.ne' hres] at h
    simp only [Option.some.injEq] at h
    subst h
    exact ⟨by simp [hres], fun _ hne => absurd hres hne⟩
  · rw [step_of_no_restart s n hp.ne' hres] at h
    simp only [Option.some.injEq] at h
    subst h
    refine ⟨by simp [hres], fun h1 _ h2 hdvd => ?_⟩
    dsimp only at h1
    rw [step_of_no_restart
        { s with t := Int.tdiv n s.total_epochs_per_period
                 tCur := Int.fmod n s.total_epochs_per_period + 1 }
        (n + 1) hp.ne' h2] at h1
    simp only [Option.some.injEq] at h1
    subst h1
    dsimp only
    exact fmod_add_one_of_not_dvd n s.total_epochs_per_period hp hdvd

/-- C4 witness: epochs 3 and 4 of the fresh `(0, 1, 10, 1, 1)` scheduler,
with the two step results pinned explicitly. -/
theorem spec_c4_amended_witness :
    ((⟨3, 1, 0, ⟨0, 1, 10, 1, 1, 10, 10, 4, 0⟩⟩ : StepInfo).tCurUsed =
      if ((3 : ℤ) : ℚ) = (CosineAnnealingWithWarmRestarts.init 0 1 10 1 1).tNext then 0
      else Int.fmod 3
        (CosineAnnealingWithWarmRestarts.init 0 1 10 1 1).total_epochs_per_period) ∧
    ((⟨3, 1, 0, ⟨0, 1, 10, 1, 1, 10, 10, 4, 0⟩⟩ : StepInfo).next.step (3 + 1) =
        some ⟨4, 1, 0, ⟨0, 1, 10, 1, 1, 10, 10, 5, 0⟩⟩ →
      (((3 : ℤ) : ℚ) ≠ (CosineAnnealingWithWarmRestarts.init 0 1 10 1 1).tNext) →
      (((3 + 1 : ℤ) : ℚ) ≠
        (⟨3, 1, 0, ⟨0, 1, 10, 1, 1, 10, 10, 4, 0⟩⟩ : StepInfo).next.tNext) →
      ¬((CosineAnnealingWithWarmRestarts.init 0 1 10 1 1).total_epochs_per_period ∣
        (3 + 1)) →
      (⟨4, 1, 0, ⟨0, 1, 10, 1, 1, 10, 10, 5, 0⟩⟩ : StepInfo).tCurUsed =
        (⟨3, 1, 0, ⟨0, 1, 10, 1, 1, 10, 10, 4, 0⟩⟩ : StepInfo).tCurUsed + 1) :=
  spec_c4_amended (CosineAnnealingWithWarmRestarts.init 0 1 10 1 1) 3
    ⟨3, 1, 0, ⟨0, 1, 10, 1, 1, 10, 10, 4, 0⟩⟩
    ⟨4, 1, 0, ⟨0, 1, 10, 1, 1, 10, 10, 5, 0⟩⟩ (by decide)
    (by
      rw [step_of_no_restart _ 3 (by decide)
        (by norm_num [CosineAnnealingWithWarmRestarts.init])]
      norm_num [CosineAnnealingWithWarmRestarts.init, StepInfo.mk.injEq,
        CosineAnnealingWithWarmRestarts.mk.injEq,
        show Int.fmod 3 10 = (3 : ℤ) from by decide,
        show Int.tdiv 3 10 = (0 : ℤ) from by decide])

/-- C5 counterexample: with `expansion_factor = 0` on the
`(0, 1, 10, 1, 0)` configuration and consecutive updates from epoch `0`,
the restart branch executes at epoch 10 (`resetCalls = 1`) but the new
`tNext` equals the old one (`10`, not strictly greater) and the new
`tPeriod` is `0`, strictly below the base period `10` — refuting both the
strict increase of `next_restart_epoch` and `current_period ≥ base_period`
for arbitrary configurations. -/
theorem spec_c5_counterexample :
    runSteps (CosineAnnealingWithWarmRestarts.init 0 1 10 1 0)
        [0, 1, 2, 3, 4, 5, 6, 7, 8, 9] = some ⟨0, 1, 10, 1, 0, 10, 10, 10, 0⟩ ∧
    (⟨0, 1, 10, 1, 0, 10, 10, 10, 0⟩ : CosineAnnealingWithWarmRestarts).step 10 =
      some ⟨0, 1, 1, ⟨0, 1, 10, 1, 0, 10, 0, 1, 2⟩⟩ ∧
    ¬((⟨0, 1, 10, 1, 0, 10, 10, 10, 0⟩ : CosineAnnealingWithWarmRestarts).tNext <
        (⟨0, 1, 10, 1, 0, 10, 0, 1, 2⟩ : CosineAnnealingWithWarmRestarts).tNext) ∧
    (⟨0, 1, 10, 1, 0, 10, 0, 1, 2⟩ : CosineAnnealingWithWarmRestarts).tPeriod <
      ((⟨0, 1, 10, 1, 0, 10, 0, 1, 2⟩ :
          CosineAnnealingWithWarmRestarts).total_epochs_per_period : ℚ) := by
  refine ⟨?_, ?_, by norm_num, by norm_num⟩
  · have h := runSteps_last (CosineAnnealingWithWarmRestarts.init 0 1 10 1 0)
      [0, 1, 2, 3, 4, 5, 6, 7, 8] 9 (by decide)
      (by intro k hk; fin_cases hk <;> norm_num [CosineAnnealingWithWarmRestarts.init])
      (by norm_num [CosineAnnealingWithWarmRestarts.init])
    rw [show ([0, 1, 2, 3, 4, 5, 6, 7, 8, 9] : List ℤ) =
      [0, 1, 2, 3, 4, 5, 6, 7, 8] ++ [9] from rfl, h]
    norm_num [CosineAnnealingWithWarmRestarts.init, CosineAnnealingWithWarmRestarts.mk.injEq,
      show Int.fmod 9 10 = (9 : ℤ) from by decide,
      show Int.tdiv 9 10 = (0 : ℤ) from by decide]
  · rw [step_of_restart _ 10 (by decide) (by norm_num)]
    norm_num [StepInfo.mk.injEq, CosineAnnealingWithWarmRestarts.mk.injEq,
      show (Int.tdiv 10 10).toNat = 1 from by decide,
      show Int.tdiv 10 10 = (1 : ℤ) from by decide]

/-- C5 amended: provided `expansion_factor ≥ 1`, `base_period > 0`, and
`current_period ≥ base_period` (which holds inductively, since
construction sets `tPeriod = base_period` and non-restart calls change
neither `tNext` nor `tPeriod`): when the restart branch executes, the new
`tNext` is strictly greater than the old one and advances exactly by the
newly expanded `tPeriod`, which itself stays at or above the base
period. -/
theorem spec_c5_amended (s : CosineAnnealingWithWarmRestarts) (n : ℤ)
    (i : StepInfo) (h : s.step n = some i)
    (hp : 0 < s.total_epochs_per_period)
    (he : 1 ≤ s.period_iteration_expansion_factor)
    (hper : (s.total_epochs_per_period : ℚ) ≤ s.tPeriod) :
    (∀ (a b d e : ℚ) (p : ℤ),
      (CosineAnnealingWithWarmRestarts.init a b p d e).tPeriod = (p : ℚ) ∧
      (CosineAnnealingWithWarmRestarts.init a b p d e).tNext = (p : ℚ)) ∧
    ((n : ℚ) ≠ s.tNext → i.next.tNext = s.tNext ∧ i.next.tPeriod = s.tPeriod) ∧
    ((n : ℚ) = s.tNext →
      i.next.tPeriod = s.tPeriod * s.period_iteration_expansion_factor ∧
      i.next.tNext = s.tNext + i.next.tPeriod ∧
      s.tNext < i.next.tNext ∧
      (s.total_epochs_per_period : ℚ) ≤ i.next.tPeriod) := by
  have hq : (0 : ℚ) < (s.total_epochs_per_period : ℚ) := by exact_mod_cast hp
  by_cases hres : (n : ℚ) = s.tNext
  · rw [step_of_restart s n hp.ne' hres] at h
    simp only [Option.some.injEq] at h
    subst h
    refine ⟨fun a b d e p => ⟨rfl, rfl⟩, fun hne => absurd hres hne,
      fun _ => ⟨rfl, rfl, ?_, ?_⟩⟩
    · dsimp only
      nlinarith [hper, he, hq]
    · dsimp only
      nlinarith [hper, he, hq]
  · rw [step_of_no_restart s n hp.ne' hres] at h
    simp only [Option.some.injEq] at h
    subst h
    exact ⟨fun a b d e p => ⟨rfl, rfl⟩, fun _ => ⟨rfl, rfl⟩,
      fun heq => absurd heq hres⟩

/-- C5 witness: the first restart of the fresh `(0, 1, 10, 1, 1)`
scheduler at epoch 10. -/
theorem spec_c5_amended_witness :
    (∀ (a b d e : ℚ) (p : ℤ),
      (CosineAnnealingWithWarmRestarts.init a b p d e).tPeriod = (p : ℚ) ∧
      (CosineAnnealingWithWarmRestarts.init a b p d e).tNext = (p : ℚ)) ∧
    (((10 : ℤ) : ℚ) ≠ (CosineAnnealingWithWarmRestarts.init 0 1 10 1 1).tNext →
      (⟨0, 1, 1, ⟨0, 1, 10, 1, 1, 20, 10, 1, 2⟩⟩ : StepInfo).next.tNext =
        (CosineAnnealingWithWarmRestarts.init 0 1 10 1 1).tNext ∧
      (⟨0, 1, 1, ⟨0, 1, 10, 1, 1, 20, 10, 1, 2⟩⟩ : StepInfo).next.tPeriod =
        (CosineAnnealingWithWarmRestarts.init 0 1 10 1 1).tPeriod) ∧
    (((10 : ℤ) : ℚ) = (CosineAnnealingWithWarmRestarts.init 0 1 10 1 1).tNext →
      (⟨0, 1, 1, ⟨0, 1, 10, 1, 1, 20, 10, 1, 2⟩⟩ : StepInfo).next.tPeriod =
        (CosineAnnealingWithWarmRestarts.init 0 1 10 1 1).tPeriod *
          (CosineAnnealingWithWarmRestarts.init 0 1 10 1 1).period_iteration_expansion_factor ∧
      (⟨0, 1, 1, ⟨0, 1, 10, 1, 1, 20, 10, 1, 2⟩⟩ : StepInfo).next.tNext =
        (CosineAnnealingWithWarmRestarts.init 0 1 10 1 1).tNext +
          (⟨0, 1, 1, ⟨0, 1, 10, 1, 1, 20, 10, 1, 2⟩⟩ : StepInfo).next.tPeriod ∧
      (CosineAnnealingWithWarmRestarts.init 0 1 10 1 1).tNext <
        (⟨0, 1, 1, ⟨0, 1, 10, 1, 1, 20, 10, 1, 2⟩⟩ : StepInfo).next.tNext ∧
      (((CosineAnnealingWithWarmRestarts.init 0 1 10 1 1).total_epochs_per_period : ℚ) ≤
        (⟨0, 1, 1, ⟨0, 1, 10, 1, 1, 20, 10, 1, 2⟩⟩ : StepInfo).next.tPeriod)) :=
  spec_c5_amended (CosineAnnealingWithWarmRestarts.init 0 1 10 1 1) 10
    ⟨0, 1, 1, ⟨0, 1, 10, 1, 1, 20, 10, 1, 2⟩⟩
    (by
      rw [step_of_restart _ 10 (by decide)
        (by norm_num [CosineAnnealingWithWarmRestarts.init])]
      norm_num [CosineAnnealingWithWarmRestarts.init, StepInfo.mk.injEq,
        CosineAnnealingWithWarmRestarts.mk.injEq,
        show (Int.tdiv 10 10).toNat = 1 from by decide,
        show Int.tdiv 10 10 = (1 : ℤ) from by decide])
    (by decide) (by norm_num [CosineAnnealingWithWarmRestarts.init])
    (by norm_num [CosineAnnealingWithWarmRestarts.init])

lemma cosineRate_strict_anti (m e : ℚ) (p i j : ℤ) (hp : 0 < p) (hme : m < e)
    (hi : 0 ≤ i) (hij : i < j) (hj : j < p) :
    cosineRate m e p j < cosineRate m e p i := by
  unfold cosineRate
  have hpR : (0 : ℝ) < ((p : ℤ) : ℝ) := by exact_mod_cast hp
  have hiR : (0 : ℝ) ≤ ((i : ℤ) : ℝ) := by exact_mod_cast hi
  have hijR : ((i : ℤ) : ℝ) < ((j : ℤ) : ℝ) := by exact_mod_cast hij
  have hjR : ((j : ℤ) : ℝ) < ((p : ℤ) : ℝ) := by exact_mod_cast hj
  have hx : 0 ≤ Real.pi * (((i : ℤ) : ℝ) / ((p : ℤ) : ℝ)) := by positivity
  have hy : Real.pi * (((j : ℤ) : ℝ) / ((p : ℤ) : ℝ)) ≤ Real.pi := by
    have h1 : ((j : ℤ) : ℝ) / ((p : ℤ) : ℝ) ≤ 1 := by
      rw [div_le_one hpR]
      exact hjR.le
    nlinarith [Real.pi_pos]
  have hxy : Real.pi * (((i : ℤ) : ℝ) / ((p : ℤ) : ℝ)) <
      Real.pi * (((j : ℤ) : ℝ) / ((p : ℤ) : ℝ)) := by
    exact mul_lt_mul_of_pos_left ((div_lt_div_iff_of_pos_right hpR).mpr hijR) Real.pi_pos
  have hcos := Real.cos_lt_cos_of_nonneg_of_le_pi hx hy hxy
  have hmeR : ((m : ℚ) : ℝ) < ((e : ℚ) : ℝ) := by exact_mod_cast hme
  nlinarith [hcos, hmeR]

/-- C6 counterexample: with `min_rate = 1/2 < max_rate = 1` but
`discount_factor = 0`, after the restart at epoch 10 the effective peak
(`0`) is below `min_rate`, and between the restart boundaries 10 and 20
the returned rate strictly *increases* with the position: the rate at
epoch 12 (position 2) is strictly greater than at epoch 11 (position 1),
refuting strict decrease for every configuration with
`max_rate > min_rate`. -/
theorem spec_c6_counterexample :
    runSteps (CosineAnnealingWithWarmRestarts.init (1/2) 1 10 0 1)
        [0, 1, 2, 3, 4, 5, 6, 7, 8, 9, 10] =
      some ⟨1/2, 1, 10, 0, 1, 20, 10, 1, 2⟩ ∧
    (⟨1/2, 1, 10, 0, 1, 20, 10, 1, 2⟩ :
        CosineAnnealingWithWarmRestarts).update_learning_rule (id : Unit → Unit) () 11 =
      some (cosineRate (1/2) 0 10 1, ⟨1/2, 1, 10, 0, 1, 20, 10, 2, 1⟩, (), 0) ∧
    (⟨1/2, 1, 10, 0, 1, 20, 10, 2, 1⟩ :
        CosineAnnealingWithWarmRestarts).update_learning_rule (id : Unit → Unit) () 12 =
      some (cosineRate (1/2) 0 10 2, ⟨1/2, 1, 10, 0, 1, 20, 10, 3, 1⟩, (), 0) ∧
    cosineRate (1/2) 0 10 1 < cosineRate (1/2) 0 10 2 := by
  have hrun9 : runSteps (CosineAnnealingWithWarmRestarts.init (1/2) 1 10 0 1)
      [0, 1, 2, 3, 4, 5, 6, 7, 8, 9] = some ⟨1/2, 1, 10, 0, 1, 10, 10, 10, 0⟩ := by
    have h := runSteps_last (CosineAnnealingWithWarmRestarts.init (1/2) 1 10 0 1)
      [0, 1, 2, 3, 4, 5, 6, 7, 8] 9 (by decide)
      (by intro k hk; fin_cases hk <;> norm_num [CosineAnnealingWithWarmRestarts.init])
      (by norm_num [CosineAnnealingWithWarmRestarts.init])
    rw [show ([0, 1, 2, 3, 4, 5, 6, 7, 8, 9] : List ℤ) =
      [0, 1, 2, 3, 4, 5, 6, 7, 8] ++ [9] from rfl, h]
    norm_num [CosineAnnealingWithWarmRestarts.init, CosineAnnealingWithWarmRestarts.mk.injEq,
      show Int.fmod 9 10 = (9 : ℤ) from by decide,
      show Int.tdiv 9 10 = (0 : ℤ) from by decide]
  have hstep10 : (⟨1/2, 1, 10, 0, 1, 10, 10, 10, 0⟩ :
      CosineAnnealingWithWarmRestarts).step 10 =
      some ⟨0, 0, 1, ⟨1/2, 1, 10, 0, 1, 20, 10, 1, 2⟩⟩ := by
    rw [step_of_restart _ 10 (by decide) (by norm_num)]
    norm_num [StepInfo.mk.injEq, CosineAnnealingWithWarmRestarts.mk.injEq,
      show (Int.tdiv 10 10).toNat = 1 from by decide,
      show Int.tdiv 10 10 = (1 : ℤ) from by decide]
  have hstep11 : (⟨1/2, 1, 10, 0, 1, 20, 10, 1, 2⟩ :
      CosineAnnealingWithWarmRestarts).step 11 =
      some ⟨1, 0, 0, ⟨1/2, 1, 10, 0, 1, 20, 10, 2, 1⟩⟩ := by
    rw [step_of_no_restart _ 11 (by decide) (by norm_num)]
    norm_num [StepInfo.mk.injEq, CosineAnnealingWithWarmRestarts.mk.injEq,
      show Int.fmod 11 10 = (1 : ℤ) from by decide,
      show Int.tdiv 11 10 = (1 : ℤ) from by decide,
      show Int.toNat 1 = 1 from by decide]
  have hstep12 : (⟨1/2, 1, 10, 0, 1, 20, 10, 2, 1⟩ :
      CosineAnnealingWithWarmRestarts).step 12 =
      some ⟨2, 0, 0, ⟨1/2, 1, 10, 0, 1, 20, 10, 3, 1⟩⟩ := by
    rw [step_of_no_restart _ 12 (by decide) (by norm_num)]
    norm_num [StepInfo.mk.injEq, CosineAnnealingWithWarmRestarts.mk.injEq,
      show Int.fmod 12 10 = (2 : ℤ) from by decide,
      show Int.tdiv 12 10 = (1 : ℤ) from by decide,
      show Int.toNat 1 = 1 from by decide]
  refine ⟨?_, ?_, ?_, ?_⟩
  · rw [show ([0, 1, 2, 3, 4, 5, 6, 7, 8, 9, 10] : List ℤ) =
      [0, 1, 2, 3, 4, 5, 6, 7, 8, 9] ++ [10] from rfl,
      runSteps_append, hrun9, Option.some_bind, runSteps_cons, hstep10,
      Option.some_bind, runSteps_nil]
  · rw [update_eq_of_step id _ () 11 _ hstep11]
  · rw [update_eq_of_step id _ () 12 _ hstep12]
  · unfold cosineRate
    push_cast
    have h1 : 0 ≤ Real.pi * ((1 : ℝ) / 10) := by positivity
    have h2 : Real.pi * ((2 : ℝ) / 10) ≤ Real.pi := by linarith [Real.pi_pos]
    have h3 : Real.pi * ((1 : ℝ) / 10) < Real.pi * ((2 : ℝ) / 10) := by
      linarith [Real.pi_pos]
    have hcos := Real.cos_lt_cos_of_nonneg_of_le_pi h1 h2 h3
    linarith [hcos]

/-- C6 amended: within one cycle (two calls on the same stored state, at
epochs with equal cycle index and no restart firing) the returned rate is
strictly decreasing in the position `epoch mod base_period` over
`[0, base_period)`, provided the cycle's *effective* peak
`max_rate · discount^cycle_count` exceeds `min_rate` — in particular for
`max_rate > min_rate` in any undiscounted cycle; when discounting has
pushed the effective peak to or below `min_rate`, strict decrease fails
(see the counterexample). -/
theorem spec_c6_amended {L : Type} (reset : L → L) (l : L)
    (s : CosineAnnealingWithWarmRestarts) (n₁ n₂ : ℤ) (r₁ r₂ : ℝ)
    (z₁ z₂ : CosineAnnealingWithWarmRestarts × L × ℕ)
    (hp : 0 < s.total_epochs_per_period)
    (h1 : (n₁ : ℚ) ≠ s.tNext) (h2 : (n₂ : ℚ) ≠ s.tNext)
    (hsame : Int.tdiv n₁ s.total_epochs_per_period =
      Int.tdiv n₂ s.total_epochs_per_period)
    (hlt : Int.fmod n₁ s.total_epochs_per_period <
      Int.fmod n₂ s.total_epochs_per_period)
    (heff : s.min_learning_rate <
      s.max_learning_rate * s.max_learning_rate_discount_factor ^
        (Int.tdiv n₁ s.total_epochs_per_period).toNat)
    (hu1 : s.update_learning_rule reset l n₁ = some (r₁, z₁))
    (hu2 : s.update_learning_rule reset l n₂ = some (r₂, z₂)) :
    r₂ < r₁ := by
  rw [update_eq_of_step reset s l n₁ _ (step_of_no_restart s n₁ hp.ne' h1)] at hu1
  rw [update_eq_of_step reset s l n₂ _ (step_of_no_restart s n₂ hp.ne' h2)] at hu2
  simp only [Option.some.injEq, Prod.mk.injEq] at hu1 hu2
  obtain ⟨hr1, -⟩ := hu1
  obtain ⟨hr2, -⟩ := hu2
  subst hr1
  subst hr2
  rw [← hsame]
  refine cosineRate_strict_anti _ _ _ _ _ hp heff ?_ hlt ?_
  · rw [Int.fmod_eq_emod _ hp.le]
    exact Int.emod_nonneg _ hp.ne'
  · rw [Int.fmod_eq_emod _ hp.le]
    exact Int.emod_lt_of_pos _ hp

/-- C6 witness: positions 1 and 2 of the first cycle of the fresh
`(0, 1, 10, 1, 1)` scheduler. -/
theorem spec_c6_amended_witness :
    cosineRate 0 1 10 2 < cosineRate 0 1 10 1 :=
  spec_c6_amended id () (CosineAnnealingWithWarmRestarts.init 0 1 10 1 1) 1 2
    (cosineRate 0 1 10 1) (cosineRate 0 1 10 2)
    (⟨0, 1, 10, 1, 1, 10, 10, 2, 0⟩, (), 0) (⟨0, 1, 10, 1, 1, 10, 10, 3, 0⟩, (), 0)
    (by decide)
    (by norm_num [CosineAnnealingWithWarmRestarts.init])
    (by norm_num [CosineAnnealingWithWarmRestarts.init])
    (by decide) (by decide)
    (by norm_num [CosineAnnealingWithWarmRestarts.init,
      show (Int.tdiv 1 10).toNat = 0 from by decide])
    (by
      have hstep : (CosineAnnealingWithWarmRestarts.init 0 1 10 1 1).step 1 =
          some ⟨1, 1, 0, ⟨0, 1, 10, 1, 1, 10, 10, 2, 0⟩⟩ := by
        rw [step_of_no_restart _ 1 (by decide)
          (by norm_num [CosineAnnealingWithWarmRestarts.init])]
        norm_num [CosineAnnealingWithWarmRestarts.init, StepInfo.mk.injEq,
          CosineAnnealingWithWarmRestarts.mk.injEq,
          show Int.fmod 1 10 = (1 : ℤ) from by decide,
          show Int.tdiv 1 10 = (0 : ℤ) from by decide]
      rw [update_eq_of_step id _ () 1 _ hstep]
      norm_num [CosineAnnealingWithWarmRestarts.init])
    (by
      have hstep : (CosineAnnealingWithWarmRestarts.init 0 1 10 1 1).step 2 =
          some ⟨2, 1, 0, ⟨0, 1, 10, 1, 1, 10, 10, 3, 0⟩⟩ := by
        rw [step_of_no_restart _ 2 (by decide)
          (by norm_num [CosineAnnealingWithWarmRestarts.init])]
        norm_num [CosineAnnealingWithWarmRestarts.init, StepInfo.mk.injEq,
          CosineAnnealingWithWarmRestarts.mk.injEq,
          show Int.fmod 2 10 = (2 : ℤ) from by decide,
          show Int.tdiv 2 10 = (0 : ℤ) from by decide]
      rw [update_eq_of_step id _ () 2 _ hstep]
      norm_num [CosineAnnealingWithWarmRestarts.init])
